import Mathlib

/-!
Verification of the task recommendation/ranking engine of the
`task_service_backend` repository (`service.py`, `models.py`).

The embedding models the Django data store as explicit lists of rows
(`Store`), the scoring pipeline of `TaskService` as functions over that
store, machine floats as exact reals, and fallible operations
(`get_object_or_404`, the TF-IDF vectorizer's empty-vocabulary error)
as `Except String`.

`sklearn.TfidfVectorizer` defaults are embedded: lowercase the text,
tokenize with the pattern `\b\w\w+\b` (maximal runs of at least two word
characters), term frequency times smoothed idf `ln((1+n)/(1+df)) + 1`
with `n = 2` documents.  sklearn l2-normalizes the rows and
`cosine_similarity` normalizes again; cosine similarity is invariant
under positive scaling of rows, and sklearn maps a zero row to
similarity 0, which coincides with the Lean convention `x / 0 = 0`, so
the cosine is computed on the unnormalized tf-idf rows.
-/

set_option maxHeartbeats 1000000

namespace TaskService

/-- Task status (`Task.Status` in `models.py`). -/
inductive Status where
  | notStarted
  | inProgress
  | inReview
  | done
deriving DecidableEq, Repr

/-- A row of the `Task` table: the fields the ranking engine reads. -/
structure Task where
  id : Nat
  description : String
  status : Status
  assignee : Option Nat
  is_active : Bool
deriving DecidableEq, Repr

/-- A row of the `TaskProperty` table. -/
structure TaskProperty where
  task_id : Nat
  property_id : Nat
deriving DecidableEq, Repr

/-- A row of the `UserProperty` table. -/
structure UserProperty where
  user_id : Nat
  property_id : Nat
  is_interested : Bool
deriving DecidableEq, Repr

/-- A row of the `UserBehavior` table. -/
structure UserBehavior where
  user_id : Nat
  task_id : Nat
  is_like : Bool
deriving DecidableEq, Repr

/-- The data-store snapshot one ranking call sees.  `tasks` is a list:
its order is the enumeration order the implementation happens to observe
(database row order followed by Python `set` iteration), which SQL and
the hash table leave unspecified. -/
structure Store where
  tasks : List Task
  taskProperties : List TaskProperty
  userProperties : List UserProperty
  userBehaviors : List UserBehavior
deriving Repr

/-- Primary keys of the `Task` table are unique (database constraint). -/
def Store.Wellformed (s : Store) : Prop := (s.tasks.map (·.id)).Nodup

/-- `TaskService.get_user_interested_properties`: property ids with
`is_interested=True` for the user. -/
def get_user_interested_properties (s : Store) (user : Nat) : Finset Nat :=
  ((s.userProperties.filter fun p => p.user_id == user && p.is_interested).map
    (·.property_id)).toFinset

/-- `TaskService.get_user_liked_tasks`: task ids the user liked
(`is_like=True`), as the deduplicated list the set iteration yields. -/
def get_user_liked_tasks (s : Store) (user : Nat) : List Nat :=
  ((s.userBehaviors.filter fun b => b.user_id == user && b.is_like).map
    (·.task_id)).dedup

/-- `TaskService.get_user_completed_tasks`: ids of tasks assigned to the
user with status DONE (`user.assigned_tasks.filter(status=DONE)`). -/
def get_user_completed_tasks (s : Store) (user : Nat) : List Nat :=
  ((s.tasks.filter fun t => t.assignee == some user && t.status == Status.done).map
    (·.id)).dedup

/-- `TaskService.get_task_properties`: property ids linked to the task. -/
def get_task_properties (s : Store) (t : Task) : Finset Nat :=
  ((s.taskProperties.filter fun p => p.task_id == t.id).map
    (·.property_id)).toFinset

/-- ASCII lowercasing of one character, as `str.lower()` acts on the
ASCII range. -/
def pyLower (c : Char) : Char :=
  if 'A' ≤ c && c ≤ 'Z' then Char.ofNat (c.toNat + 32) else c

/-- ASCII word character of the regex class `\w`. -/
def isWordChar (c : Char) : Bool := c.isAlphanum || c == '_'

/-- Maximal runs of word characters in a character list; `acc` holds the
current run reversed. -/
def tokenRuns : List Char → List Char → List (List Char)
  | [], acc => if acc.isEmpty then [] else [acc.reverse]
  | c :: cs, acc =>
    if isWordChar c then tokenRuns cs (c :: acc)
    else if acc.isEmpty then tokenRuns cs [] else acc.reverse :: tokenRuns cs []

/-- sklearn default analyzer: lowercase, then keep the tokens matching
`\b\w\w+\b` — runs of at least two word characters. -/
def tokenize (text : String) : List String :=
  ((tokenRuns (text.toList.map pyLower) []).filter (fun r => 2 ≤ r.length)).map
    (fun r => String.mk r)

/-- The fitted vocabulary of the two-document corpus. -/
def vocabulary (d1 d2 : String) : List String := (tokenize d1 ++ tokenize d2).dedup

/-- Smoothed idf over the two-document corpus:
`ln((1 + n)/(1 + df)) + 1` with `n = 2`. -/
noncomputable def idf (d1 d2 t : String) : ℝ :=
  let df : Nat :=
    (if t ∈ tokenize d1 then 1 else 0) + (if t ∈ tokenize d2 then 1 else 0)
  Real.log ((1 + 2) / (1 + df : ℝ)) + 1

/-- Entry of the tf-idf matrix: term frequency of `t` in `doc` times the
idf of `t` in the corpus `{d1, d2}`. -/
noncomputable def tfidfWeight (d1 d2 doc t : String) : ℝ :=
  ((tokenize doc).count t : ℝ) * idf d1 d2 t

/-- Dot product of the tf-idf rows of `da` and `db` over the vocabulary. -/
noncomputable def tfidfDot (d1 d2 da db : String) : ℝ :=
  ((vocabulary d1 d2).map
    (fun t => tfidfWeight d1 d2 da t * tfidfWeight d1 d2 db t)).sum

/-- Cosine similarity of the two tf-idf rows.  A zero row gives 0, as in
sklearn (`x / 0 = 0` in Lean). -/
noncomputable def cosineSimilarity (d1 d2 : String) : ℝ :=
  tfidfDot d1 d2 d1 d2 /
    (Real.sqrt (tfidfDot d1 d2 d1 d1) * Real.sqrt (tfidfDot d1 d2 d2 d2))

/-- `TaskService.calc_task_similarity`: fit the vectorizer on the two
descriptions and take the cosine of the rows.  `fit_transform` raises
`ValueError` when the fitted vocabulary is empty. -/
noncomputable def calc_task_similarity (t1 t2 : Task) : Except String ℝ :=
  if (vocabulary t1.description t2.description).isEmpty then
    Except.error "empty vocabulary"
  else
    Except.ok (cosineSimilarity t1.description t2.description)

/-- `TaskService.get_interest_based_score`: fraction of the task's own
properties that the user is interested in; 0 for an untagged task. -/
noncomputable def get_interest_based_score (s : Store) (user : Nat) (task : Task) : ℝ :=
  let user_interested_properties := get_user_interested_properties s user
  let task_properties := get_task_properties s task
  let common_properties := task_properties ∩ user_interested_properties
  if task_properties ≠ ∅ then
    (common_properties.card : ℝ) / (task_properties.card : ℝ)
  else 0

/-- `get_object_or_404(Task, pk=...)`: resolve a task id or raise. -/
def get_object_or_404 (s : Store) (pk : Nat) : Except String Task :=
  match s.tasks.find? (fun t => t.id == pk) with
  | some t => Except.ok t
  | none => Except.error "404: no Task matches the given query"

/-- The `score_sum` accumulation loop shared by the history and behavior
scores: resolve each id and add the similarity to `task`; the first
failure aborts the call, as an uncaught Python exception does. -/
noncomputable def similarity_sum (s : Store) (task : Task) : List Nat → Except String ℝ
  | [] => Except.ok 0
  | pk :: rest => do
    let other ← get_object_or_404 s pk
    let sim ← calc_task_similarity task other
    let tail ← similarity_sum s task rest
    return sim + tail

/-- `TaskService.get_history_based_score`: average similarity of `task`
to the user's completed tasks; 0 when there are none. -/
noncomputable def get_history_based_score (s : Store) (user : Nat) (task : Task) :
    Except String ℝ :=
  let completed_task_ids := get_user_completed_tasks s user
  if completed_task_ids.isEmpty then Except.ok 0
  else do
    let score_sum ← similarity_sum s task completed_task_ids
    return score_sum / (completed_task_ids.length : ℝ)

/-- `TaskService.get_behavior_based_score`: average similarity of `task`
to the user's liked tasks; 0 when there are none. -/
noncomputable def get_behavior_based_score (s : Store) (user : Nat) (task : Task) :
    Except String ℝ :=
  let liked_task_ids := get_user_liked_tasks s user
  if liked_task_ids.isEmpty then Except.ok 0
  else do
    let score_sum ← similarity_sum s task liked_task_ids
    return score_sum / (liked_task_ids.length : ℝ)

/-- `set(Task.objects.all().filter(is_active=True))`: the candidate set,
in its (unspecified) enumeration order. -/
def activeTasks (s : Store) : List Task := (s.tasks.filter (·.is_active)).dedup

/-- One task's entry across the three raw score dicts built by the first
loop of `get_user_task_rank`. -/
structure RawScores where
  task : Task
  interest : ℝ
  history : ℝ
  behavior : ℝ

/-- The first loop of `get_user_task_rank` over a list of candidate
tasks: fill the three raw score dicts row by row; the first uncaught
exception aborts the call. -/
noncomputable def rawScoreRows (s : Store) (user : Nat) :
    List Task → Except String (List RawScores)
  | [] => Except.ok []
  | task :: rest => do
    let i := get_interest_based_score s user task
    let h ← get_history_based_score s user task
    let b ← get_behavior_based_score s user task
    let tail ← rawScoreRows s user rest
    return RawScores.mk task i h b :: tail

/-- The three raw score dicts of `get_user_task_rank`, keyed in candidate
order (Python dicts preserve insertion order). -/
noncomputable def rawScoreTable (s : Store) (user : Nat) : Except String (List RawScores) :=
  rawScoreRows s user (activeTasks s)

/-- `np.mean` of a list of floats. -/
noncomputable def npMean (l : List ℝ) : ℝ := l.sum / (l.length : ℝ)

/-- `np.std` of a list of floats: population standard deviation. -/
noncomputable def npStd (l : List ℝ) : ℝ :=
  Real.sqrt ((l.map (fun x => (x - npMean l) ^ 2)).sum / (l.length : ℝ))

/-- Python `max(values, default=d)`. -/
noncomputable def pyMax (l : List ℝ) (d : ℝ) : ℝ :=
  match l with
  | [] => d
  | x :: xs => xs.foldl max x

/-- Value expression of the `normalized_interest_scores` comprehension:
`score / interest_score_max if interest_score_max else 0`. -/
noncomputable def interestNorm (interest_score_max score : ℝ) : ℝ :=
  if interest_score_max ≠ 0 then score / interest_score_max else 0

/-- Value expression of the two z-score comprehensions:
`(score - mean) / std if std else 0` (the `[(...)]` wrapping in the
source makes a one-element numpy array, numerically the same value). -/
noncomputable def zscore (mean std score : ℝ) : ℝ :=
  if std ≠ 0 then (score - mean) / std else 0

/-- `normalized_interest_scores` (service.py lines 264-267): divide by
the maximum raw interest score, or 0 throughout when that maximum is 0. -/
noncomputable def normalized_interest_scores (tab : List RawScores) : List (Task × ℝ) :=
  let interest_score_max := pyMax (tab.map (·.interest)) 0
  tab.map (fun r => (r.task, interestNorm interest_score_max r.interest))

/-- `normalized_history_score` (service.py lines 269-274): z-score of the
history raw scores. -/
noncomputable def normalized_history_score (tab : List RawScores) : List (Task × ℝ) :=
  let history_score_mean := npMean (tab.map (·.history))
  let history_score_std := npStd (tab.map (·.history))
  tab.map (fun r => (r.task, zscore history_score_mean history_score_std r.history))

/-- `normalized_behavior_score` (service.py lines 276-281).  The mean and
std are those of the behavior raw scores, but the comprehension iterates
`history_scores.items()`, so the value standardized for each task is its
HISTORY raw score. -/
noncomputable def normalized_behavior_score (tab : List RawScores) : List (Task × ℝ) :=
  let behavior_score_mean := npMean (tab.map (·.behavior))
  let behavior_score_std := npStd (tab.map (·.behavior))
  tab.map (fun r => (r.task, zscore behavior_score_mean behavior_score_std r.history))

/-- The behavior-signal normalization the specification prescribes
(spec §4.3): z-score standardization of the behavior raw scores
themselves.  Stated from the spec's words as the comparison point for
the code's `normalized_behavior_score`. -/
noncomputable def spec_normalized_behavior_score (tab : List RawScores) : List (Task × ℝ) :=
  let behavior_score_mean := npMean (tab.map (·.behavior))
  let behavior_score_std := npStd (tab.map (·.behavior))
  tab.map (fun r => (r.task, zscore behavior_score_mean behavior_score_std r.behavior))

/-- Pointwise sum of two score dicts sharing the same keys in the same
insertion order. -/
def addTables (a b : List (Task × ℝ)) : List (Task × ℝ) :=
  List.zipWith (fun p q => (p.1, p.2 + q.2)) a b

/-- `final_scores` (service.py lines 284-285): per-task sum of the three
normalized scores, keyed in candidate order. -/
noncomputable def final_scores (tab : List RawScores) : List (Task × ℝ) :=
  addTables (normalized_interest_scores tab)
    (addTables (normalized_history_score tab) (normalized_behavior_score tab))

/-- The descending comparison `sorted(..., key=..., reverse=True)` sorts
by: an entry precedes another when its score is at least as large. -/
def scoreGE (p q : Task × ℝ) : Prop := q.2 ≤ p.2

noncomputable instance : DecidableRel scoreGE := fun p q => Real.decidableLE q.2 p.2

instance : IsTotal (Task × ℝ) scoreGE := ⟨fun a b => le_total b.2 a.2⟩

instance : IsTrans (Task × ℝ) scoreGE := ⟨fun _ _ _ hab hbc => le_trans hbc hab⟩

/-- Stable descending sort by score, as
`sorted(final_scores, key=final_scores.get, reverse=True)`: a stable
insertion sort placing each entry ahead of the first existing entry
whose score is not larger. -/
noncomputable def sortDesc (l : List (Task × ℝ)) : List (Task × ℝ) :=
  l.insertionSort scoreGE

/-- `TaskService.get_user_task_rank`: score every active task, normalize
each signal over the candidate set, sum, and sort descending. -/
noncomputable def get_user_task_rank (s : Store) (user : Nat) : Except String (List Task) := do
  let tab ← rawScoreTable s user
  return (sortDesc (final_scores tab)).map (·.1)

/-! Concrete store snapshots used to instantiate the theorems. -/

/-- Active candidate, description "alpha beta". -/
def taskA : Task := ⟨1, "alpha beta", Status.notStarted, none, true⟩

/-- Active candidate, description "gamma delta". -/
def taskB : Task := ⟨2, "gamma delta", Status.notStarted, none, true⟩

/-- Inactive task the user liked; same description as `taskA`. -/
def taskL : Task := ⟨3, "alpha beta", Status.notStarted, none, false⟩

/-- Inactive task the user completed; same description as `taskB`. -/
def taskH : Task := ⟨4, "gamma delta", Status.done, some 1, false⟩

/-- Store where user 1 completed `taskH` and liked `taskL`, with two
active candidates whose history and behavior raw scores differ. -/
def storeC1 : Store := ⟨[taskA, taskB, taskL, taskH], [], [], [⟨1, 3, true⟩]⟩

/-- Active task with an untokenizable description. -/
def taskP1 : Task := ⟨5, "", Status.notStarted, none, true⟩

/-- Second active task with an untokenizable description. -/
def taskP2 : Task := ⟨6, "", Status.notStarted, none, true⟩

/-- Two active tasks, no signals at all: every total score ties. -/
def storeP : Store := ⟨[taskP1, taskP2], [], [], []⟩

/-- The same rows as `storeP` enumerated in the other order. -/
def storeQ : Store := ⟨[taskP2, taskP1], [], [], []⟩

/-- Active task with no linked properties. -/
def taskI1 : Task := ⟨10, "", Status.notStarted, none, true⟩

/-- Active task linked to property 7. -/
def taskI2 : Task := ⟨11, "", Status.notStarted, none, true⟩

/-- Store where user 1 is interested in property 7 and only `taskI2`
carries it: distinct interest scores, no other signals. -/
def storeI : Store := ⟨[taskI1, taskI2], [⟨11, 7⟩], [⟨1, 7, true⟩], []⟩

/-- An inactive task. -/
def taskN : Task := ⟨20, "quiet", Status.notStarted, none, false⟩

/-- Store with no active task. -/
def storeN : Store := ⟨[taskN], [], [], []⟩

/-- Active task with a tokenizable description. -/
def taskD : Task := ⟨30, "hello world", Status.notStarted, none, true⟩

/-- Store whose behavior table references task id 99, which no task row
carries: a dangling liked-task id. -/
def storeD : Store := ⟨[taskD], [], [], [⟨1, 99, true⟩]⟩

/-- A non-empty description with no token of two word characters. -/
def taskSingle : Task := ⟨40, "a", Status.notStarted, none, true⟩

/-- A task with an empty description. -/
def taskEmpty1 : Task := ⟨41, "", Status.notStarted, none, true⟩

/-- Another task with an empty description. -/
def taskEmpty2 : Task := ⟨42, "", Status.notStarted, none, true⟩

/-- A task with a two-token description. -/
def taskHello : Task := ⟨43, "hello world", Status.notStarted, none, true⟩

/-! ### Interest signal -/

/-- An untagged task scores 0 on the interest signal. -/
theorem interest_score_of_no_properties (s : Store) (u : Nat) (t : Task)
    (h : get_task_properties s t = ∅) : get_interest_based_score s u t = 0 := by
  simp [get_interest_based_score, h]

/-- With tags present the interest score is the matched fraction of the
task's own tags. -/
theorem interest_score_eq_ratio (s : Store) (u : Nat) (t : Task)
    (h : get_task_properties s t ≠ ∅) :
    get_interest_based_score s u t =
      ((get_user_interested_properties s u ∩ get_task_properties s t).card : ℝ) /
        ((get_task_properties s t).card : ℝ) := by
  unfold get_interest_based_score
  rw [if_pos h, Finset.inter_comm]

/-- The interest score is nonnegative. -/
theorem interest_score_nonneg (s : Store) (u : Nat) (t : Task) :
    0 ≤ get_interest_based_score s u t := by
  unfold get_interest_based_score
  dsimp only
  split
  · positivity
  · exact le_refl 0

/-- The interest score is at most 1. -/
theorem interest_score_le_one (s : Store) (u : Nat) (t : Task) :
    get_interest_based_score s u t ≤ 1 := by
  unfold get_interest_based_score
  dsimp only
  split
  · apply div_le_one_of_le₀
    · exact_mod_cast Finset.card_le_card Finset.inter_subset_left
    · positivity
  · exact zero_le_one

/-- When every tag of the task is of interest the score is exactly 1. -/
theorem interest_score_full (s : Store) (u : Nat) (t : Task)
    (h : get_task_properties s t ≠ ∅)
    (hsub : get_task_properties s t ⊆ get_user_interested_properties s u) :
    get_interest_based_score s u t = 1 := by
  unfold get_interest_based_score
  rw [if_pos h, Finset.inter_eq_left.mpr hsub, div_self]
  have : 0 < (get_task_properties s t).card :=
    Finset.card_pos.mpr (Finset.nonempty_iff_ne_empty.mpr h)
  exact_mod_cast Nat.pos_iff_ne_zero.mp this

/-- C8: letting U be the user's interested property ids and T the task's
linked property ids, the interest score is 0 when T is empty and
|U ∩ T| / |T| otherwise; it lies in [0, 1] and equals 1 when T is
non-empty and entirely contained in U. -/
theorem interest_score_contract (s : Store) (u : Nat) (t : Task) :
    (get_task_properties s t = ∅ → get_interest_based_score s u t = 0) ∧
    (get_task_properties s t ≠ ∅ →
      get_interest_based_score s u t =
        ((get_user_interested_properties s u ∩ get_task_properties s t).card : ℝ) /
          ((get_task_properties s t).card : ℝ)) ∧
    0 ≤ get_interest_based_score s u t ∧
    get_interest_based_score s u t ≤ 1 ∧
    (get_task_properties s t ≠ ∅ →
      get_task_properties s t ⊆ get_user_interested_properties s u →
      get_interest_based_score s u t = 1) :=
  ⟨interest_score_of_no_properties s u t, interest_score_eq_ratio s u t,
   interest_score_nonneg s u t, interest_score_le_one s u t, interest_score_full s u t⟩

/-- C8 witness: in `storeI`, task `taskI2` is fully tagged with user 1's
interests and its interest score is 1. -/
theorem interest_score_contract_witness :
    get_task_properties storeI taskI2 ≠ ∅ ∧
    get_task_properties storeI taskI2 ⊆ get_user_interested_properties storeI 1 ∧
    get_interest_based_score storeI 1 taskI2 = 1 :=
  ⟨by decide, by decide,
   (interest_score_contract storeI 1 taskI2).2.2.2.2 (by decide) (by decide)⟩

/-! ### Score-table structure -/

/-- Bind on `Except` propagates a successful first step. -/
@[simp]
theorem except_bind_ok {α β : Type} (a : α) (f : α → Except String β) :
    (Except.ok a : Except String α) >>= f = f a := rfl

/-- Bind on `Except` propagates the first error. -/
@[simp]
theorem except_bind_error {α β : Type} (e : String) (f : α → Except String β) :
    (Except.error e : Except String α) >>= f = Except.error e := rfl

/-- On `Except`, `pure` is `ok`. -/
@[simp]
theorem except_pure_eq_ok {α : Type} (a : α) :
    (pure a : Except String α) = Except.ok a := rfl

/-- A left fold of `max` dominates its seed. -/
theorem le_foldl_max (l : List ℝ) (a : ℝ) : a ≤ l.foldl max a := by
  induction l generalizing a with
  | nil => exact le_refl a
  | cons x xs ih => exact le_trans (le_max_left a x) (ih (max a x))

/-- `max(values, default=0)` over nonnegative values is nonnegative. -/
theorem pyMax_nonneg (l : List ℝ) (h : ∀ x ∈ l, 0 ≤ x) : 0 ≤ pyMax l 0 := by
  cases l with
  | nil => simp [pyMax]
  | cons x xs =>
    simp only [pyMax]
    exact le_trans (h x (List.mem_cons_self x xs)) (le_foldl_max xs x)

/-- Structure of a successful raw-score table: one row per candidate in
candidate order, each holding that task's interest score. -/
theorem rawScoreRows_ok (s : Store) (u : Nat) :
    ∀ (l : List Task) (tab : List RawScores), rawScoreRows s u l = Except.ok tab →
      tab.map (·.task) = l ∧
      ∀ r ∈ tab, r.interest = get_interest_based_score s u r.task := by
  intro l
  induction l with
  | nil =>
    intro tab h
    simp only [rawScoreRows, Except.ok.injEq] at h
    subst h
    simp
  | cons t rest ih =>
    intro tab h
    simp only [rawScoreRows] at h
    cases hh : get_history_based_score s u t with
    | error e => rw [hh] at h; simp at h
    | ok hv =>
      rw [hh] at h
      cases hb : get_behavior_based_score s u t with
      | error e => rw [hb] at h; simp at h
      | ok bv =>
        rw [hb] at h
        cases hr : rawScoreRows s u rest with
        | error e => rw [hr] at h; simp at h
        | ok tail =>
          rw [hr] at h
          simp only [except_bind_ok, except_pure_eq_ok, Except.ok.injEq] at h
          subst h
          obtain ⟨ihmap, ihval⟩ := ih tail hr
          constructor
          · simp [ihmap]
          · intro r hrmem
            rcases List.mem_cons.mp hrmem with hhead | htail
            · subst hhead; rfl
            · exact ihval r htail

/-- C10: max-normalization of the interest signal is order-preserving:
within one candidate table, a task whose raw interest score is at most
another's receives a normalized interest score that is at most the
other's, in both the nonzero-max and the zero-max branches. -/
theorem interest_normalization_monotone (s : Store) (u : Nat) (tab : List RawScores)
    (htab : rawScoreTable s u = Except.ok tab) (r1 r2 : RawScores)
    (_h1 : r1 ∈ tab) (_h2 : r2 ∈ tab) (hle : r1.interest ≤ r2.interest) :
    interestNorm (pyMax (tab.map (·.interest)) 0) r1.interest ≤
      interestNorm (pyMax (tab.map (·.interest)) 0) r2.interest := by
  have hnn : ∀ x ∈ tab.map (·.interest), 0 ≤ x := by
    intro x hx
    rcases List.mem_map.mp hx with ⟨r, hr, rfl⟩
    rw [(rawScoreRows_ok s u (activeTasks s) tab htab).2 r hr]
    exact interest_score_nonneg s u r.task
  by_cases hM0 : pyMax (tab.map (·.interest)) 0 = 0
  · simp [interestNorm, hM0]
  · have hpos : 0 < pyMax (tab.map (·.interest)) 0 :=
      lt_of_le_of_ne (pyMax_nonneg _ hnn) (Ne.symm hM0)
    rw [interestNorm, interestNorm, if_pos hM0, if_pos hM0]
    gcongr

/-! ### Degenerate-signal evaluation -/

/-- The history score is 0 when the user has completed nothing. -/
theorem history_score_of_no_completed (s : Store) (u : Nat) (t : Task)
    (h : get_user_completed_tasks s u = []) :
    get_history_based_score s u t = Except.ok 0 := by
  simp [get_history_based_score, h]

/-- The behavior score is 0 when the user has liked nothing. -/
theorem behavior_score_of_no_liked (s : Store) (u : Nat) (t : Task)
    (h : get_user_liked_tasks s u = []) :
    get_behavior_based_score s u t = Except.ok 0 := by
  simp [get_behavior_based_score, h]

/-- With no completed and no liked tasks every raw-score row is
(interest, 0, 0) and no similarity is ever computed. -/
theorem rawScoreRows_no_signals (s : Store) (u : Nat)
    (hc : get_user_completed_tasks s u = []) (hl : get_user_liked_tasks s u = [])
    (l : List Task) :
    rawScoreRows s u l =
      Except.ok (l.map fun t => ⟨t, get_interest_based_score s u t, 0, 0⟩) := by
  induction l with
  | nil => simp [rawScoreRows]
  | cons t rest ih =>
    simp [rawScoreRows, history_score_of_no_completed s u t hc,
      behavior_score_of_no_liked s u t hl, ih]

/-- Interest score of the untagged candidate in `storeI`. -/
theorem interest_storeI_taskI1 : get_interest_based_score storeI 1 taskI1 = 0 :=
  interest_score_of_no_properties _ _ _ (by decide)

/-- Interest score of the fully matched candidate in `storeI`. -/
theorem interest_storeI_taskI2 : get_interest_based_score storeI 1 taskI2 = 1 :=
  interest_score_full _ _ _ (by decide) (by decide)

/-- The raw-score table of `storeI` for user 1. -/
theorem rawScoreTable_storeI :
    rawScoreTable storeI 1 = Except.ok [⟨taskI1, 0, 0, 0⟩, ⟨taskI2, 1, 0, 0⟩] := by
  have h := rawScoreRows_no_signals storeI 1 rfl rfl (activeTasks storeI)
  rw [rawScoreTable, h, show activeTasks storeI = [taskI1, taskI2] by decide]
  simp [interest_storeI_taskI1, interest_storeI_taskI2]

/-! ### Shape of the final score table and the sort -/

/-- Pointwise sums of score tables built over the same keys keep the
keys and add the values. -/
theorem addTables_map (f g : RawScores → ℝ) (tab : List RawScores) :
    addTables (tab.map fun r => (r.task, f r)) (tab.map fun r => (r.task, g r)) =
      tab.map fun r => (r.task, f r + g r) := by
  induction tab with
  | nil => rfl
  | cons r rest ih =>
    simp only [List.map_cons, addTables, List.zipWith_cons_cons] at ih ⊢
    rw [ih]

/-- The final score table, written as one map over the raw-score table.
Both standardized summands draw on the history raw score, reflecting the
`history_scores.items()` iteration in the behavior comprehension. -/
theorem final_scores_eq_map (tab : List RawScores) :
    final_scores tab = tab.map fun r =>
      (r.task,
        interestNorm (pyMax (tab.map (·.interest)) 0) r.interest +
          (zscore (npMean (tab.map (·.history))) (npStd (tab.map (·.history))) r.history +
            zscore (npMean (tab.map (·.behavior))) (npStd (tab.map (·.behavior))) r.history)) := by
  unfold final_scores normalized_interest_scores normalized_history_score
    normalized_behavior_score
  dsimp only
  rw [addTables_map, addTables_map]

/-- The final score table is keyed by the candidate tasks in order. -/
theorem final_scores_fst (tab : List RawScores) :
    (final_scores tab).map (·.1) = tab.map (·.task) := by
  rw [final_scores_eq_map]
  simp

/-- The sort of `get_user_task_rank` permutes the final score table. -/
theorem sortDesc_perm (l : List (Task × ℝ)) : (sortDesc l).Perm l :=
  List.perm_insertionSort scoreGE l

/-- The sort of `get_user_task_rank` yields nonincreasing scores. -/
theorem sortDesc_sorted (l : List (Task × ℝ)) : (sortDesc l).Sorted scoreGE :=
  List.sorted_insertionSort scoreGE l

/-- C3: a successful ranking call returns a permutation of exactly the
active-task candidate set: every active task exactly once, nothing else. -/
theorem ranking_permutes_active_tasks (s : Store) (u : Nat) (out : List Task)
    (h : get_user_task_rank s u = Except.ok out) : out.Perm (activeTasks s) := by
  unfold get_user_task_rank at h
  cases htab : rawScoreTable s u with
  | error e => rw [htab] at h; simp at h
  | ok tab =>
    rw [htab] at h
    simp only [except_bind_ok, except_pure_eq_ok, Except.ok.injEq] at h
    subst h
    have hperm := (sortDesc_perm (final_scores tab)).map (·.1)
    rw [final_scores_fst, (rawScoreRows_ok s u (activeTasks s) tab htab).1] at hperm
    exact hperm

/-- The final score table of `storeI`: normalized interest drives the
totals, the z-scored signals vanish. -/
theorem final_scores_storeI :
    final_scores [⟨taskI1, 0, 0, 0⟩, ⟨taskI2, 1, 0, 0⟩] = [(taskI1, 0), (taskI2, 1)] := by
  rw [final_scores_eq_map]
  norm_num [pyMax, npMean, npStd, interestNorm, zscore, Real.sqrt_zero]

/-- Sorting `storeI`'s final score table swaps the two entries. -/
theorem sortDesc_storeI :
    sortDesc [(taskI1, (0 : ℝ)), (taskI2, 1)] = [(taskI2, 1), (taskI1, 0)] := by
  unfold sortDesc
  simp only [List.insertionSort, List.orderedInsert_nil]
  rw [List.orderedInsert, if_neg (by norm_num [scoreGE])]
  rfl

/-- The full ranking of `storeI` for user 1. -/
theorem rank_storeI : get_user_task_rank storeI 1 = Except.ok [taskI2, taskI1] := by
  unfold get_user_task_rank
  rw [rawScoreTable_storeI]
  simp only [except_bind_ok, except_pure_eq_ok]
  rw [final_scores_storeI, sortDesc_storeI]
  rfl

/-- C3 witness: in `storeI` the ranking succeeds and its output is a
permutation of the candidate set. -/
theorem ranking_permutes_active_tasks_witness :
    get_user_task_rank storeI 1 = Except.ok [taskI2, taskI1] ∧
    [taskI2, taskI1].Perm (activeTasks storeI) :=
  ⟨rank_storeI, ranking_permutes_active_tasks storeI 1 [taskI2, taskI1] rank_storeI⟩

/-- C4: a successful ranking call returns the task column of a
reordering of the final score table, and along that reordering every
adjacent pair of total scores is nonincreasing. -/
theorem ranking_sorted_by_total_desc (s : Store) (u : Nat) (tab : List RawScores)
    (htab : rawScoreTable s u = Except.ok tab) :
    get_user_task_rank s u = Except.ok ((sortDesc (final_scores tab)).map (·.1)) ∧
    (sortDesc (final_scores tab)).Perm (final_scores tab) ∧
    (sortDesc (final_scores tab)).Chain' (fun p q => q.2 ≤ p.2) := by
  refine ⟨?_, sortDesc_perm _, ?_⟩
  · unfold get_user_task_rank
    rw [htab]
    simp
  · exact (sortDesc_sorted (final_scores tab)).chain'

/-- C4 witness: the sorted-descending contract instantiated at `storeI`,
whose two candidates have distinct total scores. -/
theorem ranking_sorted_by_total_desc_witness :
    get_user_task_rank storeI 1 =
      Except.ok ((sortDesc (final_scores [⟨taskI1, 0, 0, 0⟩, ⟨taskI2, 1, 0, 0⟩])).map (·.1)) ∧
    (sortDesc (final_scores [⟨taskI1, 0, 0, 0⟩, ⟨taskI2, 1, 0, 0⟩])).Perm
      (final_scores [⟨taskI1, 0, 0, 0⟩, ⟨taskI2, 1, 0, 0⟩]) ∧
    (sortDesc (final_scores [⟨taskI1, 0, 0, 0⟩, ⟨taskI2, 1, 0, 0⟩])).Chain'
      (fun p q => q.2 ≤ p.2) :=
  ranking_sorted_by_total_desc storeI 1 _ rawScoreTable_storeI

/-! ### Empty candidate set -/

/-- C7: with no active task the ranking returns the empty ordered
sequence and no error, for every user. -/
theorem ranking_empty_candidates (s : Store) (u : Nat) (h : activeTasks s = []) :
    get_user_task_rank s u = Except.ok [] := by
  unfold get_user_task_rank rawScoreTable
  rw [h]
  simp [rawScoreRows, final_scores, normalized_interest_scores,
    normalized_history_score, normalized_behavior_score, addTables, sortDesc,
    List.insertionSort]

/-- C7 witness: `storeN` holds only an inactive task; ranking user 1
returns the empty sequence. -/
theorem ranking_empty_candidates_witness :
    activeTasks storeN = [] ∧ get_user_task_rank storeN 1 = Except.ok [] :=
  ⟨by decide, ranking_empty_candidates storeN 1 (by decide)⟩

/-! ### Tie-breaking and enumeration order -/

/-- Ordered insertion leaves the list order unchanged when the inserted
entry ties with the head. -/
theorem orderedInsert_of_ties (p : Task × ℝ) (l : List (Task × ℝ))
    (h : ∀ q ∈ l, q.2 = p.2) : l.orderedInsert scoreGE p = p :: l := by
  cases l with
  | nil => rfl
  | cons q rest =>
    exact List.orderedInsert_of_le scoreGE rest (le_of_eq (h q (List.mem_cons_self q rest)))

/-- A score table whose totals all tie sorts to itself: the stable sort
keeps the enumeration order. -/
theorem sortDesc_of_ties (l : List (Task × ℝ))
    (h : ∀ p ∈ l, ∀ q ∈ l, p.2 = q.2) : sortDesc l = l := by
  induction l with
  | nil => rfl
  | cons p rest ih =>
    unfold sortDesc at ih ⊢
    simp only [List.insertionSort]
    rw [ih (fun a ha b hb =>
      h a (List.mem_cons_of_mem p ha) b (List.mem_cons_of_mem p hb))]
    exact orderedInsert_of_ties p rest (fun q hq =>
      h q (List.mem_cons_of_mem p hq) p (List.mem_cons_self p rest))

/-- When every total score ties, the ranking output is exactly the
candidate enumeration order. -/
theorem rank_of_ties (s : Store) (u : Nat) (tab : List RawScores)
    (htab : rawScoreTable s u = Except.ok tab)
    (hties : ∀ p ∈ final_scores tab, ∀ q ∈ final_scores tab, p.2 = q.2) :
    get_user_task_rank s u = Except.ok (activeTasks s) := by
  unfold get_user_task_rank
  rw [htab]
  simp only [except_bind_ok, except_pure_eq_ok]
  rw [sortDesc_of_ties _ hties, final_scores_fst, (rawScoreRows_ok s u _ tab htab).1]

/-- The raw-score table of `storeP` for user 1. -/
theorem rawScoreTable_storeP :
    rawScoreTable storeP 1 = Except.ok [⟨taskP1, 0, 0, 0⟩, ⟨taskP2, 0, 0, 0⟩] := by
  have h := rawScoreRows_no_signals storeP 1 rfl rfl (activeTasks storeP)
  rw [rawScoreTable, h, show activeTasks storeP = [taskP1, taskP2] by decide]
  simp [interest_score_of_no_properties storeP 1 taskP1 (by decide),
    interest_score_of_no_properties storeP 1 taskP2 (by decide)]

/-- The raw-score table of `storeQ` (same rows enumerated swapped). -/
theorem rawScoreTable_storeQ :
    rawScoreTable storeQ 1 = Except.ok [⟨taskP2, 0, 0, 0⟩, ⟨taskP1, 0, 0, 0⟩] := by
  have h := rawScoreRows_no_signals storeQ 1 rfl rfl (activeTasks storeQ)
  rw [rawScoreTable, h, show activeTasks storeQ = [taskP2, taskP1] by decide]
  simp [interest_score_of_no_properties storeQ 1 taskP1 (by decide),
    interest_score_of_no_properties storeQ 1 taskP2 (by decide)]

/-- The final score table of `storeP`: all totals tie at 0. -/
theorem final_scores_storeP :
    final_scores [⟨taskP1, 0, 0, 0⟩, ⟨taskP2, 0, 0, 0⟩] = [(taskP1, 0), (taskP2, 0)] := by
  rw [final_scores_eq_map]
  norm_num [pyMax, npMean, npStd, interestNorm, zscore, Real.sqrt_zero]

/-- The final score table of `storeQ`: all totals tie at 0. -/
theorem final_scores_storeQ :
    final_scores [⟨taskP2, 0, 0, 0⟩, ⟨taskP1, 0, 0, 0⟩] = [(taskP2, 0), (taskP1, 0)] := by
  rw [final_scores_eq_map]
  norm_num [pyMax, npMean, npStd, interestNorm, zscore, Real.sqrt_zero]

/-- Ranking `storeP` follows its enumeration order. -/
theorem rank_storeP : get_user_task_rank storeP 1 = Except.ok [taskP1, taskP2] :=
  rank_of_ties storeP 1 _ rawScoreTable_storeP
    (by rw [final_scores_storeP]; simp)

/-- Ranking `storeQ` follows its (swapped) enumeration order. -/
theorem rank_storeQ : get_user_task_rank storeQ 1 = Except.ok [taskP2, taskP1] :=
  rank_of_ties storeQ 1 _ rawScoreTable_storeQ
    (by rw [final_scores_storeQ]; simp)

/-- C6 counterexample: `storeP` and `storeQ` are the same abstract store
state — the same set of task rows and identical property and behavior
tables — yet the two ranking calls return different sequences: the tied
candidates come back in whichever enumeration order the call observed. -/
theorem ranking_tie_break_not_deterministic :
    storeP.tasks.Perm storeQ.tasks ∧
    storeP.taskProperties = storeQ.taskProperties ∧
    storeP.userProperties = storeQ.userProperties ∧
    storeP.userBehaviors = storeQ.userBehaviors ∧
    get_user_task_rank storeP 1 = Except.ok [taskP1, taskP2] ∧
    get_user_task_rank storeQ 1 = Except.ok [taskP2, taskP1] ∧
    get_user_task_rank storeP 1 ≠ get_user_task_rank storeQ 1 := by
  refine ⟨List.Perm.swap taskP2 taskP1 [], rfl, rfl, rfl, rank_storeP, rank_storeQ, ?_⟩
  rw [rank_storeP, rank_storeQ]
  simp [taskP1, taskP2]

/-- C6 (amended): ranking is deterministic only relative to the
candidate enumeration order.  On a fixed snapshot the result is a
function of store and user, and the sort is stable: ANY two entries with
exactly equal total scores that stand in enumeration order in the final
score table stand in the same order in the sorted table, and their
tasks appear in that order in the returned ranking — an order that
`set` iteration does not canonicalize across invocations. -/
theorem ranking_deterministic_given_enumeration (s : Store) (u : Nat)
    (tab : List RawScores) (htab : rawScoreTable s u = Except.ok tab)
    (p q : Task × ℝ) (hpq : p.2 = q.2)
    (hsub : [p, q].Sublist (final_scores tab)) :
    get_user_task_rank s u = Except.ok ((sortDesc (final_scores tab)).map (·.1)) ∧
    [p, q].Sublist (sortDesc (final_scores tab)) ∧
    [p.1, q.1].Sublist ((sortDesc (final_scores tab)).map (·.1)) := by
  have hstable : [p, q].Sublist (sortDesc (final_scores tab)) :=
    List.pair_sublist_insertionSort (le_of_eq hpq.symm) hsub
  refine ⟨?_, hstable, ?_⟩
  · unfold get_user_task_rank
    rw [htab]
    simp
  · exact hstable.map (·.1)

/-- C6 witness: the amended statement instantiated at `storeP`, whose
two candidates tie at total score 0 and come back in enumeration
order. -/
theorem ranking_deterministic_given_enumeration_witness :
    rawScoreTable storeP 1 = Except.ok [⟨taskP1, 0, 0, 0⟩, ⟨taskP2, 0, 0, 0⟩] ∧
    ((taskP1, (0 : ℝ)).2 = ((taskP2, (0 : ℝ))).2) ∧
    [(taskP1, (0 : ℝ)), (taskP2, 0)].Sublist
      (final_scores [⟨taskP1, 0, 0, 0⟩, ⟨taskP2, 0, 0, 0⟩]) ∧
    (get_user_task_rank storeP 1 =
        Except.ok
          ((sortDesc (final_scores [⟨taskP1, 0, 0, 0⟩, ⟨taskP2, 0, 0, 0⟩])).map (·.1)) ∧
      [(taskP1, (0 : ℝ)), (taskP2, 0)].Sublist
        (sortDesc (final_scores [⟨taskP1, 0, 0, 0⟩, ⟨taskP2, 0, 0, 0⟩])) ∧
      [taskP1, taskP2].Sublist
        ((sortDesc (final_scores [⟨taskP1, 0, 0, 0⟩, ⟨taskP2, 0, 0, 0⟩])).map (·.1))) :=
  ⟨rawScoreTable_storeP, rfl,
   by rw [final_scores_storeP],
   ranking_deterministic_given_enumeration storeP 1 _ rawScoreTable_storeP
     (taskP1, 0) (taskP2, 0) rfl (by rw [final_scores_storeP])⟩

/-- C10 witness: monotonicity of the max-normalization on `storeI`'s
candidate table, between its two rows. -/
theorem interest_normalization_monotone_witness :
    (RawScores.mk taskI1 0 0 0).interest ≤ (RawScores.mk taskI2 1 0 0).interest ∧
    interestNorm
        (pyMax ([RawScores.mk taskI1 0 0 0, RawScores.mk taskI2 1 0 0].map (·.interest)) 0)
        (RawScores.mk taskI1 0 0 0).interest ≤
      interestNorm
        (pyMax ([RawScores.mk taskI1 0 0 0, RawScores.mk taskI2 1 0 0].map (·.interest)) 0)
        (RawScores.mk taskI2 1 0 0).interest :=
  ⟨by norm_num,
   interest_normalization_monotone storeI 1 _ rawScoreTable_storeI _ _
     (by simp) (by simp) (by norm_num)⟩

/-! ### Dangling liked-task ids -/

/-- The similarity loop fails whenever some id in it resolves to no task
row: the 404 (or an earlier similarity failure) aborts the sum. -/
theorem similarity_sum_error_of_dangling (s : Store) (task : Task) :
    ∀ (ids : List Nat) (d : Nat), d ∈ ids →
      s.tasks.find? (fun t => t.id == d) = none →
      ∃ e, similarity_sum s task ids = Except.error e := by
  intro ids
  induction ids with
  | nil => intro d hd _; cases hd
  | cons pk rest ih =>
    intro d hd hfind
    by_cases hpk : s.tasks.find? (fun t => t.id == pk) = none
    · exact ⟨"404: no Task matches the given query",
        by simp [similarity_sum, get_object_or_404, hpk]⟩
    · rcases Option.ne_none_iff_exists'.mp hpk with ⟨t', ht'⟩
      have hd' : d ∈ rest := by
        rcases List.mem_cons.mp hd with rfl | h
        · exact absurd hfind hpk
        · exact h
      cases hsim : calc_task_similarity task t' with
      | error e =>
        exact ⟨e, by simp [similarity_sum, get_object_or_404, ht', hsim]⟩
      | ok v =>
        rcases ih d hd' hfind with ⟨e, he⟩
        exact ⟨e, by simp [similarity_sum, get_object_or_404, ht', hsim, he]⟩

/-- A dangling liked-task id makes the behavior score of every task
fail. -/
theorem behavior_score_error_of_dangling (s : Store) (u : Nat) (task : Task) (d : Nat)
    (hd : d ∈ get_user_liked_tasks s u)
    (hfind : s.tasks.find? (fun t => t.id == d) = none) :
    ∃ e, get_behavior_based_score s u task = Except.error e := by
  have hne : (get_user_liked_tasks s u).isEmpty = false := by
    rw [List.isEmpty_eq_false_iff_exists_mem]
    exact ⟨d, hd⟩
  rcases similarity_sum_error_of_dangling s task (get_user_liked_tasks s u) d hd hfind
    with ⟨e, he⟩
  exact ⟨e, by simp [get_behavior_based_score, hne, he]⟩

/-- When the behavior score fails for every task and there is at least
one candidate, the raw-score loop fails. -/
theorem rawScoreRows_error_of_behavior (s : Store) (u : Nat) (l : List Task)
    (hl : l ≠ [])
    (hb : ∀ t : Task, ∃ e, get_behavior_based_score s u t = Except.error e) :
    ∃ e, rawScoreRows s u l = Except.error e := by
  cases l with
  | nil => exact absurd rfl hl
  | cons t rest =>
    cases hh : get_history_based_score s u t with
    | error e => exact ⟨e, by simp [rawScoreRows, hh]⟩
    | ok v =>
      rcases hb t with ⟨e, he⟩
      exact ⟨e, by simp [rawScoreRows, hh, he]⟩

/-- C5: a liked-task id that cannot be resolved to a task row makes the
whole ranking call fail whenever there is a candidate to score: the
error propagates to the caller, no partial ranking is returned, and the
unresolvable id is never skipped. -/
theorem ranking_errors_on_dangling_liked_id (s : Store) (u : Nat) (d : Nat)
    (hd : d ∈ get_user_liked_tasks s u)
    (hfind : s.tasks.find? (fun t => t.id == d) = none)
    (hact : activeTasks s ≠ []) :
    ∃ e, get_user_task_rank s u = Except.error e := by
  rcases rawScoreRows_error_of_behavior s u (activeTasks s) hact
    (fun t => behavior_score_error_of_dangling s u t d hd hfind) with ⟨e, he⟩
  exact ⟨e, by simp [get_user_task_rank, rawScoreTable, he]⟩

/-- C5 witness: in `storeD` user 1 likes the nonexistent task 99 and one
active task exists, so the ranking call reports an error. -/
theorem ranking_errors_on_dangling_liked_id_witness :
    99 ∈ get_user_liked_tasks storeD 1 ∧
    storeD.tasks.find? (fun t => t.id == 99) = none ∧
    activeTasks storeD ≠ [] ∧
    ∃ e, get_user_task_rank storeD 1 = Except.error e :=
  ⟨by decide, by decide, by decide,
   ranking_errors_on_dangling_liked_id storeD 1 99 (by decide) (by decide) (by decide)⟩

/-! ### Similarity engine -/

/-- The smoothed idf over a two-document corpus is at least 1: the
document frequency never exceeds 2, so the log argument is at least 1. -/
theorem idf_ge_one (d1 d2 t : String) : 1 ≤ idf d1 d2 t := by
  unfold idf
  dsimp only
  have hn2 : ((if t ∈ tokenize d1 then 1 else 0) +
      (if t ∈ tokenize d2 then 1 else 0) : Nat) ≤ 2 := by
    split <;> split <;> norm_num
  have harg : (1 : ℝ) ≤ (1 + 2) / (1 + ((if t ∈ tokenize d1 then 1 else 0) +
      (if t ∈ tokenize d2 then 1 else 0) : Nat) : ℝ) := by
    rw [le_div_iff₀ (by positivity)]
    have : (((if t ∈ tokenize d1 then 1 else 0) +
        (if t ∈ tokenize d2 then 1 else 0) : Nat) : ℝ) ≤ 2 := by exact_mod_cast hn2
    linarith
  linarith [Real.log_nonneg harg]

/-- Every tf-idf weight is nonnegative. -/
theorem tfidfWeight_nonneg (d1 d2 doc t : String) : 0 ≤ tfidfWeight d1 d2 doc t := by
  unfold tfidfWeight
  have := idf_ge_one d1 d2 t
  positivity

/-- The dot product of a tf-idf row with itself is nonnegative. -/
theorem tfidfDot_self_nonneg (d1 d2 da : String) : 0 ≤ tfidfDot d1 d2 da da := by
  unfold tfidfDot
  apply List.sum_nonneg
  intro x hx
  rcases List.mem_map.mp hx with ⟨t, _, rfl⟩
  exact mul_self_nonneg _

/-- A list of nonnegative reals with one positive member has positive
sum. -/
theorem list_sum_pos_of_mem (l : List ℝ) (hnn : ∀ x ∈ l, 0 ≤ x)
    (x : ℝ) (hx : x ∈ l) (hxpos : 0 < x) : 0 < l.sum := by
  induction l with
  | nil => cases hx
  | cons y ys ih =>
    rw [List.sum_cons]
    rcases List.mem_cons.mp hx with rfl | hmem
    · have : 0 ≤ ys.sum :=
        List.sum_nonneg (fun z hz => hnn z (List.mem_cons_of_mem _ hz))
      linarith
    · have hy : 0 ≤ y := hnn y (List.mem_cons_self y ys)
      have := ih (fun z hz => hnn z (List.mem_cons_of_mem _ hz)) hmem
      linarith

/-- For a tokenizable document the self dot product is positive. -/
theorem tfidfDot_self_pos (d : String) (h : tokenize d ≠ []) :
    0 < tfidfDot d d d d := by
  rcases List.exists_mem_of_ne_nil _ h with ⟨t0, ht0⟩
  unfold tfidfDot
  refine list_sum_pos_of_mem _ ?_ (tfidfWeight d d d t0 * tfidfWeight d d d t0) ?_ ?_
  · intro x hx
    rcases List.mem_map.mp hx with ⟨t, _, rfl⟩
    exact mul_self_nonneg _
  · exact List.mem_map.mpr ⟨t0, List.mem_dedup.mpr (List.mem_append_left _ ht0), rfl⟩
  · have hcount : 0 < (tokenize d).count t0 := List.count_pos_iff.mpr ht0
    have hw : 0 < tfidfWeight d d d t0 := by
      unfold tfidfWeight
      have h1 : (0 : ℝ) < ((tokenize d).count t0 : ℝ) := by exact_mod_cast hcount
      have h2 := idf_ge_one d d t0
      nlinarith
    exact mul_pos hw hw

/-- Cosine similarity of a tokenizable document with itself is 1. -/
theorem cosineSimilarity_self (d : String) (h : tokenize d ≠ []) :
    cosineSimilarity d d = 1 := by
  unfold cosineSimilarity
  have hpos := tfidfDot_self_pos d h
  rw [Real.mul_self_sqrt (le_of_lt hpos)]
  exact div_self (ne_of_gt hpos)

/-- Two tasks with the same tokenizable description have similarity
exactly 1. -/
theorem calc_task_similarity_of_eq_desc (t1 t2 : Task)
    (heq : t1.description = t2.description) (h : tokenize t1.description ≠ []) :
    calc_task_similarity t1 t2 = Except.ok 1 := by
  have hvoc : (vocabulary t1.description t2.description).isEmpty = false := by
    rw [List.isEmpty_eq_false_iff_exists_mem]
    rcases List.exists_mem_of_ne_nil _ h with ⟨x, hx⟩
    exact ⟨x, List.mem_dedup.mpr (List.mem_append_left _ hx)⟩
  simp only [calc_task_similarity, hvoc, Bool.false_eq_true, if_false]
  rw [← heq, cosineSimilarity_self t1.description h]

/-- Documents sharing no token have cosine similarity 0: every product
in the dot product has a zero factor. -/
theorem cosineSimilarity_disjoint (d1 d2 : String)
    (hdisj : ∀ t ∈ tokenize d1, t ∉ tokenize d2) :
    cosineSimilarity d1 d2 = 0 := by
  unfold cosineSimilarity
  have hdot : tfidfDot d1 d2 d1 d2 = 0 := by
    unfold tfidfDot
    apply List.sum_eq_zero
    intro x hx
    rcases List.mem_map.mp hx with ⟨t, ht, rfl⟩
    rcases List.mem_append.mp (List.mem_dedup.mp ht) with h1 | h2
    · have hc : (tokenize d2).count t = 0 := List.count_eq_zero.mpr (hdisj t h1)
      simp [tfidfWeight, hc]
    · by_cases h1' : t ∈ tokenize d1
      · exact absurd h2 (hdisj t h1')
      · have hc : (tokenize d1).count t = 0 := List.count_eq_zero.mpr h1'
        simp [tfidfWeight, hc]
  rw [hdot, zero_div]

/-- Two tasks with token-disjoint descriptions, at least one of them
tokenizable, have similarity exactly 0. -/
theorem calc_task_similarity_disjoint (t1 t2 : Task)
    (hne : tokenize t1.description ≠ [] ∨ tokenize t2.description ≠ [])
    (hdisj : ∀ t ∈ tokenize t1.description, t ∉ tokenize t2.description) :
    calc_task_similarity t1 t2 = Except.ok 0 := by
  have hvoc : (vocabulary t1.description t2.description).isEmpty = false := by
    rw [List.isEmpty_eq_false_iff_exists_mem]
    rcases hne with h | h
    · rcases List.exists_mem_of_ne_nil _ h with ⟨x, hx⟩
      exact ⟨x, List.mem_dedup.mpr (List.mem_append_left _ hx)⟩
    · rcases List.exists_mem_of_ne_nil _ h with ⟨x, hx⟩
      exact ⟨x, List.mem_dedup.mpr (List.mem_append_right _ hx)⟩
  simp only [calc_task_similarity, hvoc, Bool.false_eq_true, if_false]
  rw [cosineSimilarity_disjoint t1.description t2.description hdisj]

/-- C9 counterexample: "a" is a non-empty text, yet the similarity call
with itself raises the empty-vocabulary error instead of returning 1.0,
because the default token pattern drops terms shorter than two word
characters. -/
theorem self_similarity_errors_on_tokenless_text :
    taskSingle.description ≠ "" ∧
    calc_task_similarity taskSingle taskSingle = Except.error "empty vocabulary" ∧
    calc_task_similarity taskSingle taskSingle ≠ Except.ok 1 := by
  have hvoc : (vocabulary taskSingle.description taskSingle.description).isEmpty = true :=
    by decide
  have herr : calc_task_similarity taskSingle taskSingle = Except.error "empty vocabulary" := by
    simp [calc_task_similarity, hvoc]
  exact ⟨by decide, herr, by rw [herr]; exact fun h => Except.noConfusion h⟩

/-- C9 (amended): for every task whose description contains at least one
token — a run of two or more word characters — the similarity of the
task with itself is exactly 1. -/
theorem self_similarity_one (t : Task) (h : tokenize t.description ≠ []) :
    calc_task_similarity t t = Except.ok 1 :=
  calc_task_similarity_of_eq_desc t t rfl h

/-- C9 witness: "hello world" has tokens and self-similarity 1. -/
theorem self_similarity_one_witness :
    tokenize taskHello.description ≠ [] ∧
    calc_task_similarity taskHello taskHello = Except.ok 1 :=
  ⟨by decide, self_similarity_one taskHello (by decide)⟩

/-- C2: on two empty descriptions the similarity computation does not
return 0.0 — the vectorizer's empty-vocabulary error escapes, since the
code has no special case for empty input. -/
theorem empty_similarity_errors :
    taskEmpty1.description = "" ∧ taskEmpty2.description = "" ∧
    calc_task_similarity taskEmpty1 taskEmpty2 = Except.error "empty vocabulary" ∧
    calc_task_similarity taskEmpty1 taskEmpty2 ≠ Except.ok 0 := by
  have hvoc : (vocabulary taskEmpty1.description taskEmpty2.description).isEmpty = true :=
    by decide
  have herr : calc_task_similarity taskEmpty1 taskEmpty2 = Except.error "empty vocabulary" := by
    simp [calc_task_similarity, hvoc]
  exact ⟨rfl, rfl, herr, by rw [herr]; exact fun h => Except.noConfusion h⟩

/-! ### The behavior-normalization defect -/

/-- History score of `taskA` in `storeC1`: token-disjoint from the one
completed task, so 0. -/
theorem history_storeC1_taskA :
    get_history_based_score storeC1 1 taskA = Except.ok 0 := by
  have hsim : calc_task_similarity taskA taskH = Except.ok 0 :=
    calc_task_similarity_disjoint taskA taskH (Or.inl (by decide)) (by decide)
  have hids : get_user_completed_tasks storeC1 1 = [4] := by decide
  have h404 : get_object_or_404 storeC1 4 = Except.ok taskH := rfl
  unfold get_history_based_score
  rw [hids]
  simp [similarity_sum, h404, hsim]

/-- History score of `taskB` in `storeC1`: identical description to the
one completed task, so 1. -/
theorem history_storeC1_taskB :
    get_history_based_score storeC1 1 taskB = Except.ok 1 := by
  have hsim : calc_task_similarity taskB taskH = Except.ok 1 :=
    calc_task_similarity_of_eq_desc taskB taskH rfl (by decide)
  have hids : get_user_completed_tasks storeC1 1 = [4] := by decide
  have h404 : get_object_or_404 storeC1 4 = Except.ok taskH := rfl
  unfold get_history_based_score
  rw [hids]
  simp [similarity_sum, h404, hsim]

/-- Behavior score of `taskA` in `storeC1`: identical description to the
one liked task, so 1. -/
theorem behavior_storeC1_taskA :
    get_behavior_based_score storeC1 1 taskA = Except.ok 1 := by
  have hsim : calc_task_similarity taskA taskL = Except.ok 1 :=
    calc_task_similarity_of_eq_desc taskA taskL rfl (by decide)
  have hids : get_user_liked_tasks storeC1 1 = [3] := by decide
  have h404 : get_object_or_404 storeC1 3 = Except.ok taskL := rfl
  unfold get_behavior_based_score
  rw [hids]
  simp [similarity_sum, h404, hsim]

/-- Behavior score of `taskB` in `storeC1`: token-disjoint from the one
liked task, so 0. -/
theorem behavior_storeC1_taskB :
    get_behavior_based_score storeC1 1 taskB = Except.ok 0 := by
  have hsim : calc_task_similarity taskB taskL = Except.ok 0 :=
    calc_task_similarity_disjoint taskB taskL (Or.inl (by decide)) (by decide)
  have hids : get_user_liked_tasks storeC1 1 = [3] := by decide
  have h404 : get_object_or_404 storeC1 3 = Except.ok taskL := rfl
  unfold get_behavior_based_score
  rw [hids]
  simp [similarity_sum, h404, hsim]

/-- The raw-score table of `storeC1` for user 1: history raw scores
(0, 1) and behavior raw scores (1, 0) across the two candidates. -/
theorem rawScoreTable_storeC1 :
    rawScoreTable storeC1 1 = Except.ok [⟨taskA, 0, 0, 1⟩, ⟨taskB, 0, 1, 0⟩] := by
  rw [rawScoreTable, show activeTasks storeC1 = [taskA, taskB] by decide]
  simp [rawScoreRows, history_storeC1_taskA, history_storeC1_taskB,
    behavior_storeC1_taskA, behavior_storeC1_taskB,
    interest_score_of_no_properties storeC1 1 taskA (by decide),
    interest_score_of_no_properties storeC1 1 taskB (by decide)]

/-- Mean of the behavior raw scores in `storeC1`. -/
theorem npMean_one_zero : npMean [(1 : ℝ), 0] = 1 / 2 := by
  norm_num [npMean]

/-- Population std of the behavior raw scores in `storeC1`. -/
theorem npStd_one_zero : npStd [(1 : ℝ), 0] = 1 / 2 := by
  have harg : (([(1 : ℝ), 0].map (fun x => (x - npMean [(1 : ℝ), 0]) ^ 2)).sum /
      (([(1 : ℝ), 0].length : Nat) : ℝ)) = (1 / 2) ^ 2 := by
    norm_num [npMean]
  unfold npStd
  rw [harg]
  exact Real.sqrt_sq (by norm_num)

/-- What the code computes for the behavior signal on `storeC1`'s table:
each task's HISTORY raw score standardized by the behavior mean and
std — the sign of each z-score is flipped relative to the spec. -/
theorem normalized_behavior_storeC1 :
    normalized_behavior_score [⟨taskA, 0, 0, 1⟩, ⟨taskB, 0, 1, 0⟩] =
      [(taskA, -1), (taskB, 1)] := by
  unfold normalized_behavior_score
  dsimp only
  simp only [List.map_cons, List.map_nil]
  rw [npMean_one_zero, npStd_one_zero]
  norm_num [zscore]

/-- What the spec prescribes for the behavior signal on `storeC1`'s
table: the behavior raw scores standardized by their own mean and std. -/
theorem spec_normalized_behavior_storeC1 :
    spec_normalized_behavior_score [⟨taskA, 0, 0, 1⟩, ⟨taskB, 0, 1, 0⟩] =
      [(taskA, 1), (taskB, -1)] := by
  unfold spec_normalized_behavior_score
  dsimp only
  simp only [List.map_cons, List.map_nil]
  rw [npMean_one_zero, npStd_one_zero]
  norm_num [zscore]

/-- C1: on `storeC1` the code's normalized behavior scores are not the
z-scores of the behavior raw scores: the comprehension iterates the
history score dict, so each task is standardized at its history raw
score under the behavior mean/std, flipping the two candidates' signs
relative to the specified z-score standardization. -/
theorem behavior_normalization_standardizes_history :
    rawScoreTable storeC1 1 = Except.ok [⟨taskA, 0, 0, 1⟩, ⟨taskB, 0, 1, 0⟩] ∧
    npStd ([(⟨taskA, 0, 0, 1⟩ : RawScores), ⟨taskB, 0, 1, 0⟩].map (·.behavior)) ≠ 0 ∧
    normalized_behavior_score [⟨taskA, 0, 0, 1⟩, ⟨taskB, 0, 1, 0⟩] =
      [(taskA, -1), (taskB, 1)] ∧
    spec_normalized_behavior_score [⟨taskA, 0, 0, 1⟩, ⟨taskB, 0, 1, 0⟩] =
      [(taskA, 1), (taskB, -1)] ∧
    normalized_behavior_score [⟨taskA, 0, 0, 1⟩, ⟨taskB, 0, 1, 0⟩] ≠
      spec_normalized_behavior_score [⟨taskA, 0, 0, 1⟩, ⟨taskB, 0, 1, 0⟩] := by
  refine ⟨rawScoreTable_storeC1, ?_, normalized_behavior_storeC1,
    spec_normalized_behavior_storeC1, ?_⟩
  · simp only [List.map_cons, List.map_nil]
    rw [npStd_one_zero]
    norm_num
  · rw [normalized_behavior_storeC1, spec_normalized_behavior_storeC1]
    intro h
    injection h with h1 h2
    injection h1 with ha hv
    norm_num at hv

end TaskService
